import Mathlib

/-!
Shallow embedding of the `ample` scrobbler (Rust) for verification:
  * `src/ample/src/uri.rs`      — percent encoder
  * `src/ample/src/lastfm.rs`   — request signing, URI building, client handlers
  * `src/ample/src/main.rs`     — scrobble decision step, credential retry loop
  * `src/sys-media/src/lib.rs`  — media data model and its equality

Machine integers are modelled as `Nat`/`Int` with explicit `% 2^w`
where wrapping matters.  All definitions are executable.
-/

/-! ### Byte-wise string ordering

Rust's `str::cmp` is byte-wise lexicographic on UTF-8.  UTF-8 byte order
coincides with code-point lexicographic order, so we compare the
code-point sequences. -/

/-- Lexicographic `<=` on lists of naturals (byte strings). -/
def bytesLe : List Nat → List Nat → Bool
  | [], _ => true
  | _ :: _, [] => false
  | a :: as, b :: bs => a < b || (a == b && bytesLe as bs)

/-- Code points of a string, in order. -/
def strPoints (s : String) : List Nat := s.data.map Char.toNat

/-- Byte-wise (equivalently code-point-wise) `<=` on strings, as `str::cmp` orders them. -/
def strLe (a b : String) : Bool := bytesLe (strPoints a) (strPoints b)

theorem bytesLe_total (a b : List Nat) : bytesLe a b = true ∨ bytesLe b a = true := by
  induction a generalizing b with
  | nil => left; rfl
  | cons x xs ih =>
    cases b with
    | nil => right; rfl
    | cons y ys =>
      rcases Nat.lt_trichotomy x y with h | h | h
      · left; simp [bytesLe, h]
      · subst h
        rcases ih ys with h2 | h2
        · left; simp [bytesLe, h2]
        · right; simp [bytesLe, h2]
      · right; simp [bytesLe, h]

theorem bytesLe_antisymm {a b : List Nat} (h1 : bytesLe a b = true)
    (h2 : bytesLe b a = true) : a = b := by
  induction a generalizing b with
  | nil =>
    cases b with
    | nil => rfl
    | cons y ys => simp [bytesLe] at h2
  | cons x xs ih =>
    cases b with
    | nil => simp [bytesLe] at h1
    | cons y ys =>
      simp [bytesLe] at h1 h2
      rcases h1 with h1 | ⟨hxy, h1⟩
      · rcases h2 with h2 | ⟨hyx, _⟩
        · omega
        · omega
      · rcases h2 with h2 | ⟨_, h2⟩
        · omega
        · rw [hxy, ih h1 h2]

theorem bytesLe_trans {a b c : List Nat} (h1 : bytesLe a b = true)
    (h2 : bytesLe b c = true) : bytesLe a c = true := by
  induction a generalizing b c with
  | nil => rfl
  | cons x xs ih =>
    cases b with
    | nil => simp [bytesLe] at h1
    | cons y ys =>
      cases c with
      | nil => simp [bytesLe] at h2
      | cons z zs =>
        simp [bytesLe] at h1 h2 ⊢
        rcases h1 with h1 | ⟨hxy, h1⟩
        · rcases h2 with h2 | ⟨hyz, _⟩
          · left; omega
          · left; omega
        · rcases h2 with h2 | ⟨hyz, h2⟩
          · left; omega
          · right; exact ⟨by omega, ih h1 h2⟩

theorem char_toNat_inj {x y : Char} (h : x.toNat = y.toNat) : x = y := by
  have := congrArg Char.ofNat h
  rwa [Char.ofNat_toNat, Char.ofNat_toNat] at this

theorem strPoints_inj {a b : String} (h : strPoints a = strPoints b) : a = b := by
  apply String.ext
  exact List.map_injective_iff.mpr (fun x y hxy => char_toNat_inj hxy) h

theorem strLe_total (a b : String) : strLe a b = true ∨ strLe b a = true :=
  bytesLe_total _ _

theorem strLe_antisymm {a b : String} (h1 : strLe a b = true)
    (h2 : strLe b a = true) : a = b :=
  strPoints_inj (bytesLe_antisymm h1 h2)

theorem strLe_trans {a b c : String} (h1 : strLe a b = true)
    (h2 : strLe b c = true) : strLe a c = true :=
  bytesLe_trans h1 h2

/-! ### Sorting parameter lists by key

`create_api_sig` and `create_param_uri` collect the `HashMap` entries into a
vector and `sort_by(|a, b| a.0.cmp(b.0))`: a stable sort comparing keys only. -/

/-- Key comparison used by the Rust `sort_by` call. -/
def keyLe (a b : String × String) : Bool := strLe a.1 b.1

/-- Stable insertion of one pair into a key-sorted list. -/
def insertByKey (p : String × String) : List (String × String) → List (String × String)
  | [] => [p]
  | q :: qs => if keyLe p q then p :: q :: qs else q :: insertByKey p qs

/-- Stable sort of a parameter list by byte-wise key order. -/
def sortParams : List (String × String) → List (String × String)
  | [] => []
  | p :: ps => insertByKey p (sortParams ps)

theorem insertByKey_perm (p : String × String) (l : List (String × String)) :
    (insertByKey p l).Perm (p :: l) := by
  induction l with
  | nil => simp [insertByKey]
  | cons q qs ih =>
    by_cases h : keyLe p q
    · simp [insertByKey, h]
    · simp only [insertByKey, h, if_neg, Bool.false_eq_true, not_false_eq_true, ite_false]
      exact (ih.cons q).trans (List.Perm.swap p q qs)

theorem sortParams_perm (l : List (String × String)) : (sortParams l).Perm l := by
  induction l with
  | nil => simp [sortParams]
  | cons p ps ih =>
    exact (insertByKey_perm p (sortParams ps)).trans (ih.cons p)

/-- The output of `sortParams` is pairwise key-ordered. -/
abbrev KeySorted (l : List (String × String)) : Prop :=
  l.Pairwise (fun a b => keyLe a b = true)

theorem insertByKey_sorted {p : String × String} {l : List (String × String)}
    (h : KeySorted l) : KeySorted (insertByKey p l) := by
  induction l with
  | nil => simp [insertByKey, KeySorted]
  | cons q qs ih =>
    rcases List.pairwise_cons.mp h with ⟨hq, hqs⟩
    simp only [insertByKey]
    by_cases hpq : keyLe p q
    · rw [if_pos hpq]
      refine List.pairwise_cons.mpr ⟨?_, h⟩
      intro b hb
      rcases List.mem_cons.mp hb with rfl | hb
      · exact hpq
      · exact strLe_trans hpq (hq _ hb)
    · rw [if_neg hpq]
      refine List.pairwise_cons.mpr ⟨?_, ih hqs⟩
      intro b hb
      have hmem := (insertByKey_perm p qs).mem_iff.mp hb
      rcases List.mem_cons.mp hmem with rfl | hmem
      · rcases strLe_total b.1 q.1 with hh | hh
        · exact absurd hh hpq
        · exact hh
      · exact hq _ hmem

theorem sortParams_sorted (l : List (String × String)) : KeySorted (sortParams l) := by
  induction l with
  | nil => simp [sortParams, KeySorted]
  | cons p ps ih => exact insertByKey_sorted ih

/-- Two key-sorted permutations of each other with no duplicate keys are equal.
This is what makes the signature independent of `HashMap` iteration order. -/
theorem keySorted_perm_eq :
    ∀ {l₁ l₂ : List (String × String)}, KeySorted l₁ → KeySorted l₂ →
    l₁.Perm l₂ → (l₁.map Prod.fst).Nodup → l₁ = l₂ := by
  intro l₁
  induction l₁ with
  | nil =>
    intro l₂ _ _ hperm _
    exact (List.Perm.nil_eq hperm).symm ▸ rfl
  | cons p t₁ ih =>
    intro l₂ h1 h2 hperm hnd
    cases l₂ with
    | nil => exact absurd hperm.symm (by simp)
    | cons q t₂ =>
      rcases List.pairwise_cons.mp h1 with ⟨hp, ht₁⟩
      rcases List.pairwise_cons.mp h2 with ⟨hq, ht₂⟩
      have hpq : p = q := by
        by_cases hpq : p = q
        · exact hpq
        · exfalso
          have hqmem : q ∈ t₁ :=
            (List.mem_cons.mp (hperm.mem_iff.mpr (List.mem_cons_self q t₂))).resolve_left
              (fun h => hpq h.symm)
          have hpmem : p ∈ t₂ :=
            (List.mem_cons.mp (hperm.mem_iff.mp (List.mem_cons_self p t₁))).resolve_left hpq
          have hkey : p.1 = q.1 := strLe_antisymm (hp q hqmem) (hq p hpmem)
          rcases List.nodup_cons.mp hnd with ⟨hpn, _⟩
          exact hpn (hkey ▸ List.mem_map_of_mem Prod.fst hqmem)
      subst hpq
      have hperm' : t₁.Perm t₂ := (List.perm_cons p).mp hperm
      have hnd' : (t₁.map Prod.fst).Nodup := (List.nodup_cons.mp hnd).2
      rw [ih ht₁ ht₂ hperm' hnd']

/-! ### String concatenation helper -/

/-- Concatenation of a list of strings (the `push_str` accumulation loops). -/
def strConcat : List String → String
  | [] => ""
  | s :: rest => s ++ strConcat rest

/-! ### UTF-8 and hex rendering -/

/-- UTF-8 encoding of one character, as `char::encode_utf8` produces it. -/
def utf8Encode (c : Char) : List Nat :=
  let n := c.toNat
  if n < 128 then [n]
  else if n < 2048 then [192 ||| (n >>> 6), 128 ||| (n &&& 63)]
  else if n < 65536 then
    [224 ||| (n >>> 12), 128 ||| ((n >>> 6) &&& 63), 128 ||| (n &&& 63)]
  else
    [240 ||| (n >>> 18), 128 ||| ((n >>> 12) &&& 63),
     128 ||| ((n >>> 6) &&& 63), 128 ||| (n &&& 63)]

/-- UTF-8 bytes of a string. -/
def strBytes (s : String) : List Nat := s.data.flatMap utf8Encode

/-- One lowercase hex digit. -/
def hexDigit (n : Nat) : Char :=
  if n < 10 then Char.ofNat (48 + n) else Char.ofNat (87 + n)

/-- Lowercase two-digit zero-padded hex of a byte, as Rust `format %02x` renders
values below 256. -/
def hex2 (n : Nat) : String :=
  String.mk [hexDigit (n / 16), hexDigit (n % 16)]

/-! ### `src/ample/src/uri.rs` — percent encoder -/

/-- Constant `UNRESERVED_NONALNUM_CHARS` from `uri.rs`. -/
def UNRESERVED_NONALNUM_CHARS : List Char := ['-', '_', '~', '.']

/-- Function `is_unreserved_char` from `uri.rs`. -/
def is_unreserved_char (c : Char) : Bool :=
  c.isAlphanum || UNRESERVED_NONALNUM_CHARS.contains c

/-- The non-ASCII arm of `percent_encode`: the char's UTF-8 bytes are written
into a zeroed 4-byte buffer and zero bytes are skipped. -/
def encodeNonAsciiChar (c : Char) : String :=
  let char_bytes := utf8Encode c ++ List.replicate (4 - (utf8Encode c).length) 0
  strConcat (char_bytes.map (fun b => if b == 0 then "" else "%" ++ hex2 b))

/-- Encoding of a single character, following the branch structure of
`percent_encode` in `uri.rs`. -/
def percentEncodeChar (c : Char) : String :=
  if !is_unreserved_char c then
    if c.toNat < 128 then "%" ++ hex2 c.toNat
    else encodeNonAsciiChar c
  else String.singleton c

/-- Function `percent_encode` from `uri.rs`. -/
def percent_encode (value : String) : String :=
  strConcat (value.data.map percentEncodeChar)

/-! ### MD5 (the 128-bit digest used by `md5::compute` in `create_api_sig`)

Standard MD5 over byte lists, with 32-bit words as `Nat` reduced mod `2^32`. -/

/-- Reduce to a 32-bit word. -/
def m32 (n : Nat) : Nat := n % 4294967296

/-- Wrapping 32-bit addition. -/
def add32 (a b : Nat) : Nat := m32 (a + b)

/-- Left rotation of a 32-bit word (operand assumed below `2^32`). -/
def rotl32 (x s : Nat) : Nat := m32 (x <<< s) ||| (x >>> (32 - s))

/-- Bitwise complement of a 32-bit word. -/
def not32 (x : Nat) : Nat := Nat.xor x 4294967295

/-- The 64 MD5 sine-derived constants. -/
def md5K : List Nat :=
  [0xd76aa478, 0xe8c7b756, 0x242070db, 0xc1bdceee,
   0xf57c0faf, 0x4787c62a, 0xa8304613, 0xfd469501,
   0x698098d8, 0x8b44f7af, 0xffff5bb1, 0x895cd7be,
   0x6b901122, 0xfd987193, 0xa679438e, 0x49b40821,
   0xf61e2562, 0xc040b340, 0x265e5a51, 0xe9b6c7aa,
   0xd62f105d, 0x02441453, 0xd8a1e681, 0xe7d3fbc8,
   0x21e1cde6, 0xc33707d6, 0xf4d50d87, 0x455a14ed,
   0xa9e3e905, 0xfcefa3f8, 0x676f02d9, 0x8d2a4c8a,
   0xfffa3942, 0x8771f681, 0x6d9d6122, 0xfde5380c,
   0xa4beea44, 0x4bdecfa9, 0xf6bb4b60, 0xbebfbc70,
   0x289b7ec6, 0xeaa127fa, 0xd4ef3085, 0x04881d05,
   0xd9d4d039, 0xe6db99e5, 0x1fa27cf8, 0xc4ac5665,
   0xf4292244, 0x432aff97, 0xab9423a7, 0xfc93a039,
   0x655b59c3, 0x8f0ccc92, 0xffeff47d, 0x85845dd1,
   0x6fa87e4f, 0xfe2ce6e0, 0xa3014314, 0x4e0811a1,
   0xf7537e82, 0xbd3af235, 0x2ad7d2bb, 0xeb86d391]

/-- The 64 MD5 per-round shift amounts. -/
def md5S : List Nat :=
  [7, 12, 17, 22, 7, 12, 17, 22, 7, 12, 17, 22, 7, 12, 17, 22,
   5, 9, 14, 20, 5, 9, 14, 20, 5, 9, 14, 20, 5, 9, 14, 20,
   4, 11, 16, 23, 4, 11, 16, 23, 4, 11, 16, 23, 4, 11, 16, 23,
   6, 10, 15, 21, 6, 10, 15, 21, 6, 10, 15, 21, 6, 10, 15, 21]

/-- Little-endian rendering of `n` into `k` bytes. -/
def toLEBytes : Nat → Nat → List Nat
  | 0, _ => []
  | k + 1, n => n % 256 :: toLEBytes k (n / 256)

/-- MD5 padding: `0x80`, zeros to 56 mod 64, then the bit length as 64-bit LE. -/
def md5Pad (msg : List Nat) : List Nat :=
  let len := msg.length
  let padZeros := (119 - len % 64) % 64
  msg ++ [128] ++ List.replicate padZeros 0 ++ toLEBytes 8 ((len * 8) % 18446744073709551616)

/-- Split a byte list into 64-byte chunks. -/
def toChunks : List Nat → List (List Nat)
  | [] => []
  | b :: bs => (b :: bs).take 64 :: toChunks ((b :: bs).drop 64)
termination_by l => l.length
decreasing_by simp [List.length_drop]; omega

/-- The 16 little-endian 32-bit words of one 64-byte chunk. -/
def chunkWords (chunk : List Nat) : List Nat :=
  (List.range 16).map (fun j =>
    chunk.getD (4 * j) 0 + 256 * chunk.getD (4 * j + 1) 0 +
    65536 * chunk.getD (4 * j + 2) 0 + 16777216 * chunk.getD (4 * j + 3) 0)

/-- One MD5 round `i` on the working state `(a, b, c, d)`. -/
def md5Round (M : List Nat) (st : Nat × Nat × Nat × Nat) (i : Nat) :
    Nat × Nat × Nat × Nat :=
  let a := st.1
  let b := st.2.1
  let c := st.2.2.1
  let d := st.2.2.2
  let fg : Nat × Nat :=
    if i < 16 then (((b &&& c) ||| (not32 b &&& d)), i)
    else if i < 32 then (((d &&& b) ||| (not32 d &&& c)), (5 * i + 1) % 16)
    else if i < 48 then ((Nat.xor b (Nat.xor c d)), (3 * i + 5) % 16)
    else ((Nat.xor c (b ||| not32 d)), (7 * i) % 16)
  let f := add32 (add32 (add32 fg.1 a) (md5K.getD i 0)) (M.getD fg.2 0)
  (d, add32 b (rotl32 f (md5S.getD i 0)), b, c)

/-- Process one 64-byte chunk, updating the four state words. -/
def md5Chunk (st : Nat × Nat × Nat × Nat) (chunk : List Nat) :
    Nat × Nat × Nat × Nat :=
  let M := chunkWords chunk
  let r := (List.range 64).foldl (md5Round M) st
  (add32 st.1 r.1, add32 st.2.1 r.2.1, add32 st.2.2.1 r.2.2.1, add32 st.2.2.2 r.2.2.2)

/-- The 16 digest bytes of MD5 over a byte list. -/
def md5Bytes (msg : List Nat) : List Nat :=
  let st := (md5Pad msg |> toChunks).foldl md5Chunk
    (0x67452301, 0xefcdab89, 0x98badcfe, 0x10325476)
  toLEBytes 4 st.1 ++ toLEBytes 4 st.2.1 ++ toLEBytes 4 st.2.2.1 ++ toLEBytes 4 st.2.2.2

/-- Lowercase hex of a byte list. -/
def bytesToHex (bs : List Nat) : String := strConcat (bs.map hex2)

/-- Lowercase-hex MD5 of a string's UTF-8 bytes: the `format!("{dig:x}")`
of `md5::compute` in `lastfm.rs`. -/
def md5Hex (s : String) : String := bytesToHex (md5Bytes (strBytes s))


/-! ### `src/ample/src/lastfm.rs` — signing and URI building -/

/-- Constant `API_ROOT` from `lastfm.rs`. -/
def API_ROOT : String := "https://ws.audioscrobbler.com/2.0"

/-- Function `create_api_sig` from `lastfm.rs`: sort the parameters by key, concatenate
each key immediately followed by its value, append the secret, MD5, lowercase
hex.  The `HashMap` is modelled as a list of key-value pairs (iteration order
arbitrary, keys distinct). -/
def create_api_sig (params : List (String × String)) (secret : String) : String :=
  let unhashed_api_string :=
    (sortParams params).foldl (fun acc p => acc ++ p.1 ++ p.2) ""
  md5Hex (unhashed_api_string ++ secret)

/-- One `uri.push_str(&format!("{encoded_name}={encoded_value}"))` step of
`create_param_uri`, with the leading `&` for every pair after the first
(the enumerate index is threaded through). -/
def addParam (acc : String × Nat) (p : String × String) : String × Nat :=
  let s := if acc.2 != 0 then acc.1 ++ "&" else acc.1
  (s ++ percent_encode p.1 ++ "=" ++ percent_encode p.2, acc.2 + 1)

/-- Function `create_param_uri` from `lastfm.rs`. -/
def create_param_uri (params : List (String × String)) (sig : Option String) : String :=
  let uri := API_ROOT ++ "/?"
  let sorted := sortParams params
  let uri := (sorted.foldl addParam (uri, 0)).1
  let uri := match sig with
    | some s => uri ++ "&api_sig=" ++ s
    | none => uri
  uri ++ "&format=json"

/-- The parameter map built by `LastFm::scrobble` before the signature is
computed (`format` and `api_sig` are inserted only afterwards). -/
def scrobbleParams (artist track timestamp_str api_key sk : String)
    (album : Option String) : List (String × String) :=
  let base := [("method", "track.scrobble"), ("artist", artist), ("track", track),
               ("timestamp", timestamp_str), ("api_key", api_key), ("sk", sk)]
  match album with
  | some a => base ++ [("album", a)]
  | none => base

/-! ### `src/ample/src/lastfm.rs` — HTTP response handling

The transport (`ureq`) is configured with `http_status_as_error(false)`, so a
delivered response arrives here with its raw status.  We model the
post-transport handling of each client operation as a function of the
delivered status and body; the serde parse of `get_track_info`'s body is
abstracted into its outcome. -/

/-- The `ureq::Error` values these handlers produce. -/
inductive UreqError where
  | statusCode (code : Nat)
  | json (msg : String)
deriving DecidableEq, Repr

/-- Predicate `StatusCode::is_client_error`: 400..=499. -/
def is_client_error (status : Nat) : Bool := 400 ≤ status && status ≤ 499

/-- Predicate `StatusCode::is_server_error`: 500..=599. -/
def is_server_error (status : Nat) : Bool := 500 ≤ status && status ≤ 599

/-- Handler of `LastFm::scrobble` after the POST delivered a response: error statuses are
surfaced as `ureq::Error::StatusCode`, otherwise `Ok(())`.  The body is read
(for debug logging) but does not influence the outcome. -/
def scrobbleHandle (status : Nat) (body : String) : Except UreqError Unit :=
  let _ := body
  if is_client_error status || is_server_error status then
    Except.error (UreqError.statusCode status)
  else Except.ok ()

/-- Handler of `LastFm::now_playing` after the POST delivered a response. -/
def nowPlayingHandle (status : Nat) (body : String) : Except UreqError Unit :=
  let _ := body
  if is_client_error status || is_server_error status then
    Except.error (UreqError.statusCode status)
  else Except.ok ()

/-- The `TrackInfo` payload parsed by `get_track_info`. -/
structure TrackInfo where
  name : String
  artist_name : String
  album_artist : String
  album_title : String
  images : List (String × String)
deriving DecidableEq, Repr

/-- Handler of `LastFm::get_track_info` after the GET delivered a response: the status is
checked first; only on a non-error status is the body's parse outcome
consulted (`serde_json::from_str`, abstracted into `parsed`). -/
def getTrackInfoHandle (status : Nat) (parsed : Except String TrackInfo) :
    Except UreqError TrackInfo :=
  if is_client_error status || is_server_error status then
    Except.error (UreqError.statusCode status)
  else
    match parsed with
    | Except.ok t => Except.ok t
    | Except.error e => Except.error (UreqError.json e)

/-! ### `src/sys-media/src/lib.rs` — media data model -/

/-- Enum `MediaStatus` from `sys-media/src/lib.rs`. -/
inductive MediaStatus where
  | closed
  | opened
  | changing
  | stopped
  | playing
  | paused
deriving DecidableEq, Repr

/-- Enum `MediaType` from `sys-media/src/lib.rs`. -/
inductive MediaType where
  | unknown
  | music
  | video
  | image
deriving DecidableEq, Repr

/-- Struct `MediaInfo` from `sys-media/src/lib.rs`.  Fields `end_time` and
`current_position` are `i64` microsecond values, modelled as `Int`. -/
structure MediaInfo where
  player_name : String
  artist_name : String
  song_name : String
  album_name : String
  status : MediaStatus
  media_type : MediaType
  end_time : Int
  current_position : Int
deriving DecidableEq, Repr

/-- The `PartialEq` impl for `MediaInfo`: album, artist, song and player name
only — status, media type, length and position are ignored. -/
def mediaInfoEq (a b : MediaInfo) : Bool :=
  a.album_name == b.album_name
    && a.artist_name == b.artist_name
    && a.song_name == b.song_name
    && a.player_name == b.player_name

/-- Comparison `Option<&MediaInfo> == Some(&media_info)` under the `PartialEq` above. -/
def optMediaEq : Option MediaInfo → Option MediaInfo → Bool
  | some a, some b => mediaInfoEq a b
  | none, none => true
  | _, _ => false

/-! ### `src/ample/src/main.rs` — the scrobble decision step -/

/-- The `i64 as u64` cast: wrap modulo `2^64`. -/
def i64_as_u64 (n : Int) : Nat := (n % 18446744073709551616).toNat

/-- Conversion `Duration::from_micros(u).as_secs()`: whole seconds of a microsecond count. -/
def micros_as_secs (u : Nat) : Nat := u / 1000000

/-- The mutable loop state of `main`'s sampling loop that the decision step
reads and writes (`previously_played`, `previously_played_started`,
`current_has_been_scrobbled`, `current_song_img`).  Timestamps are `Nat`. -/
structure ScrobbleState where
  previously_played : Option MediaInfo
  previously_played_started : Option Nat
  current_has_been_scrobbled : Bool
  current_song_img : String
deriving DecidableEq, Repr

/-- The messages sent to the LastFM worker thread
(`LastFmThreadMessage` in `main.rs`); `albumImg` is the artwork fetch. -/
inductive LastFmThreadMessage where
  | nowPlaying (info : MediaInfo)
  | albumImg (info : MediaInfo)
  | scrobble (info : MediaInfo) (timestamp : Nat)
deriving DecidableEq, Repr

/-- Effect on the external status display in one tick. -/
inductive DisplayEffect where
  | update
  | clear
deriving DecidableEq, Repr

/-- Test `if let MediaStatus::Playing = media_info.status`. -/
def statusIsPlaying : MediaStatus → Bool
  | MediaStatus.playing => true
  | _ => false

/-- One tick of `main`'s decision logic for a delivered sample
(`main.rs` lines 226–288), as a pure step:
`(state, sample) -> (state, queued actions, display effect)`.

* `has_last_fm` is `last_fm.is_some()`;
* `only_am` is the `only_am` flag and `apple_music_id` the primary player id;
* `now` is the current time (`SystemTime::now`), in seconds.

On a new track the code sets `current_has_been_scrobbled = false`,
`previously_played_started = Some(now)` and sends `NowPlaying` then
`AlbumImg`; it does not touch `current_song_img`.  On a continuing track it
scrobbles at most once, converting the `i64` microsecond fields with `as u64`.
`previously_played` is overwritten with the sample at the end of the playing
branch; the non-playing branch clears the display and changes nothing. -/
def tick_step (has_last_fm only_am : Bool) (apple_music_id : String) (now : Nat)
    (s : ScrobbleState) (m : MediaInfo) : ScrobbleState × List LastFmThreadMessage × DisplayEffect :=
  let valid_player := !only_am || m.player_name == apple_music_id
  if statusIsPlaying m.status && valid_player then
    if !(optMediaEq s.previously_played (some m)) then
      let acts := if has_last_fm then [LastFmThreadMessage.nowPlaying m, LastFmThreadMessage.albumImg m] else []
      ({ previously_played := some m
         previously_played_started := some now
         current_has_been_scrobbled := false
         current_song_img := s.current_song_img }, acts, DisplayEffect.update)
    else if has_last_fm then
      let song_len_secs := micros_as_secs (i64_as_u64 m.end_time)
      let elapsed_secs := micros_as_secs (i64_as_u64 m.current_position)
      if song_len_secs > 30 && elapsed_secs > song_len_secs / 2
          && !s.current_has_been_scrobbled then
        let timestamp := s.previously_played_started.getD now
        ({ s with current_has_been_scrobbled := true, previously_played := some m },
         [LastFmThreadMessage.scrobble m timestamp], DisplayEffect.update)
      else ({ s with previously_played := some m }, [], DisplayEffect.update)
    else ({ s with previously_played := some m }, [], DisplayEffect.update)
  else (s, [], DisplayEffect.clear)

/-! ### `src/ample/src/main.rs` — credential retry loop -/

/-- Struct `LastFmCreds` from `lastfm.rs`. -/
structure LastFmCreds where
  api_key : String
  api_secret : String
  session_token : String
deriving DecidableEq, Repr

/-- Enum `CredsError` from `lastfm.rs`, plus the `RetryableError` variant.

Modelled from the spec: `retry_creds` in `main.rs` matches and constructs
`CredsError::RetryableError(code, message)`, but the enum declaration in the
`lastfm.rs` snapshot under `src/` lacks that variant; per spec §4.2/§7 it is
the classification of retryable transport failures, distinct from the fatal
variants. -/
inductive CredsError where
  | env (key : String) (msg : String)
  | keyring (msg : String)
  | missingPassword
  | missingApiSecret
  | http (msg : String)
  | retryableError (code : Int) (msg : String)
deriving DecidableEq, Repr

/-- The pattern `if let CredsError::RetryableError(_, _) = err`. -/
def isRetryable : CredsError → Bool
  | CredsError.retryableError _ _ => true
  | _ => false

/-- The loop body of `retry_creds`: `i` is the attempt index, `remaining` the
attempts left, `sleeps` the number of 1-second backoff sleeps performed so
far.  `outcomes i` is what `LastFmCreds::get_creds` returns on attempt `i`. -/
def retry_creds_go (attempts : Nat) (outcomes : Nat → Except CredsError LastFmCreds) :
    Nat → Nat → Nat → Except CredsError LastFmCreds × Nat
  | _, 0, sleeps =>
    (Except.error (CredsError.retryableError (-1)
      ("Failed to connect to LastFM after " ++ toString attempts ++ " attempts")), sleeps)
  | i, remaining + 1, sleeps =>
    match outcomes i with
    | Except.ok c => (Except.ok c, sleeps)
    | Except.error e =>
      if isRetryable e then retry_creds_go attempts outcomes (i + 1) remaining (sleeps + 1)
      else (Except.error e, sleeps)

/-- Function `retry_creds` from `main.rs`, abstracted over the per-attempt outcomes of
`get_creds`; returns the result together with the number of backoff sleeps. -/
def retry_creds (outcomes : Nat → Except CredsError LastFmCreds) (attempts : Nat) :
    Except CredsError LastFmCreds × Nat :=
  retry_creds_go attempts outcomes 0 attempts 0

/-! ### String lemmas -/

theorem strConcat_append (l₁ l₂ : List String) :
    strConcat (l₁ ++ l₂) = strConcat l₁ ++ strConcat l₂ := by
  induction l₁ with
  | nil => simp [strConcat]
  | cons s rest ih => simp [strConcat, ih, String.append_assoc]

theorem strConcat_replicate_empty (k : Nat) :
    strConcat (List.replicate k "") = "" := by
  induction k with
  | zero => rfl
  | succ n ih => simp [List.replicate, strConcat, ih]

theorem string_mk_append (a b : List Char) :
    String.mk a ++ String.mk b = String.mk (a ++ b) := rfl

theorem strConcat_singletons (l : List Char) :
    strConcat (l.map String.singleton) = String.mk l := by
  induction l with
  | nil => rfl
  | cons c rest ih =>
    simp only [List.map_cons, strConcat, ih]
    rfl

theorem strConcat_data (l : List String) :
    (strConcat l).data = (l.map String.data).flatten := by
  induction l with
  | nil => rfl
  | cons s rest ih => simp [strConcat, ih]

theorem strConcat_length (l : List String) :
    (strConcat l).length = (l.map String.length).sum := by
  induction l with
  | nil => rfl
  | cons s rest ih => simp [strConcat, String.length_append, ih]

/-- Joining with `&` separators. -/
theorem intercalate_amp (a : String) (l : List String) :
    String.intercalate "&" (a :: l) = a ++ strConcat (l.map (fun x => "&" ++ x)) := by
  induction l generalizing a with
  | nil => simp [String.intercalate, String.intercalate.go, strConcat]
  | cons b bs ih =>
    simp only [String.intercalate, List.map_cons, strConcat] at ih ⊢
    rw [String.intercalate.go, ih, String.append_assoc]
    simp [String.append_assoc]

theorem foldl_addParam (l : List (String × String)) (s : String) (n : Nat) (hn : n ≠ 0) :
    (l.foldl addParam (s, n)).1
      = s ++ strConcat (l.map (fun p => "&" ++ (percent_encode p.1 ++ "=" ++ percent_encode p.2))) := by
  induction l generalizing s n with
  | nil => simp [strConcat]
  | cons p ps ih =>
    simp only [List.foldl_cons, List.map_cons, strConcat]
    rw [addParam]
    simp only [hn, ne_eq, bne_iff_ne, not_false_eq_true, if_pos]
    rw [ih _ (n + 1) (Nat.succ_ne_zero n)]
    simp [String.append_assoc]

theorem foldl_sigConcat (l : List (String × String)) (acc : String) :
    l.foldl (fun acc p => acc ++ p.1 ++ p.2) acc
      = acc ++ strConcat (l.map (fun p => p.1 ++ p.2)) := by
  induction l generalizing acc with
  | nil => simp [strConcat]
  | cons p ps ih =>
    simp only [List.foldl_cons, List.map_cons, strConcat]
    rw [ih]
    simp [String.append_assoc]

/-! ### Hex and UTF-8 lemmas -/

/-- The sixteen lowercase hex digit characters. -/
def hexChars : List Char := "0123456789abcdef".data

theorem hexDigit_mem (n : Nat) (h : n < 16) : hexDigit n ∈ hexChars := by
  interval_cases n <;> decide

theorem hex2_data (n : Nat) : (hex2 n).data = [hexDigit (n / 16), hexDigit (n % 16)] := rfl

theorem hex2_length (n : Nat) : (hex2 n).length = 2 := rfl

theorem hex2_chars (n : Nat) (h : n < 256) : ∀ c ∈ (hex2 n).data, c ∈ hexChars := by
  intro c hc
  rw [hex2_data] at hc
  simp only [List.mem_cons, List.not_mem_nil, or_false] at hc
  rcases hc with rfl | rfl
  · exact hexDigit_mem _ (by omega)
  · exact hexDigit_mem _ (Nat.mod_lt _ (by omega))

theorem or_ne_zero_of_bit7 (k n : Nat) (hk : Nat.testBit k 7 = true) : k ||| n ≠ 0 := by
  intro h
  have h7 := congrArg (fun x => Nat.testBit x 7) h
  simp [Nat.testBit_or] at h7
  exact absurd h7.1 (by simpa using hk)

theorem utf8Encode_nonzero (c : Char) (h : 128 ≤ c.toNat) :
    ∀ b ∈ utf8Encode c, b ≠ 0 := by
  intro b hb
  unfold utf8Encode at hb
  simp only [show ¬(c.toNat < 128) by omega, if_neg, not_false_eq_true, ite_false] at hb
  by_cases h2 : c.toNat < 2048
  · rw [if_pos h2] at hb
    simp only [List.mem_cons, List.not_mem_nil, or_false] at hb
    rcases hb with rfl | rfl
    · exact or_ne_zero_of_bit7 192 _ (by decide)
    · exact or_ne_zero_of_bit7 128 _ (by decide)
  · rw [if_neg h2] at hb
    by_cases h3 : c.toNat < 65536
    · rw [if_pos h3] at hb
      simp only [List.mem_cons, List.not_mem_nil, or_false] at hb
      rcases hb with rfl | rfl | rfl
      · exact or_ne_zero_of_bit7 224 _ (by decide)
      · exact or_ne_zero_of_bit7 128 _ (by decide)
      · exact or_ne_zero_of_bit7 128 _ (by decide)
    · rw [if_neg h3] at hb
      simp only [List.mem_cons, List.not_mem_nil, or_false] at hb
      rcases hb with rfl | rfl | rfl | rfl
      · exact or_ne_zero_of_bit7 240 _ (by decide)
      · exact or_ne_zero_of_bit7 128 _ (by decide)
      · exact or_ne_zero_of_bit7 128 _ (by decide)
      · exact or_ne_zero_of_bit7 128 _ (by decide)

theorem utf8Encode_ascii (c : Char) (h : c.toNat < 128) :
    utf8Encode c = [c.toNat] := by
  unfold utf8Encode
  rw [if_pos h]

/-! ### The spec's description of per-character encoding -/

/-- The spec's words for one character: unreserved characters pass through;
any other character becomes one `%xx` pair per UTF-8 byte, lowercase,
two-digit. -/
def specEncodeChar (c : Char) : String :=
  if is_unreserved_char c then String.singleton c
  else strConcat ((utf8Encode c).map (fun b => "%" ++ hex2 b))

theorem percentEncodeChar_eq_spec (c : Char) :
    percentEncodeChar c = specEncodeChar c := by
  unfold percentEncodeChar specEncodeChar
  by_cases hu : is_unreserved_char c = true
  · have hnot : ¬((!is_unreserved_char c) = true) := by simp [hu]
    rw [if_neg hnot, if_pos hu]
  · have hu' : is_unreserved_char c = false := by
      revert hu; cases is_unreserved_char c <;> simp
    have hyes : (!is_unreserved_char c) = true := by simp [hu']
    rw [if_pos hyes, if_neg hu]
    by_cases ha : c.toNat < 128
    · rw [if_pos ha, utf8Encode_ascii c ha]
      simp [strConcat]
    · rw [if_neg ha]
      unfold encodeNonAsciiChar
      simp only []
      rw [List.map_append, strConcat_append]
      have hz : strConcat ((List.replicate (4 - (utf8Encode c).length) 0).map
          (fun b => if b == 0 then "" else "%" ++ hex2 b)) = "" := by
        rw [List.map_replicate]
        simp only [beq_self_eq_true, if_pos, ite_true]
        exact strConcat_replicate_empty _
      rw [hz]
      have hm : (utf8Encode c).map (fun b => if b == 0 then "" else "%" ++ hex2 b)
          = (utf8Encode c).map (fun b => "%" ++ hex2 b) := by
        apply List.map_congr_left
        intro b hb
        have hnz := utf8Encode_nonzero c (by omega) b hb
        simp [hnz]
      rw [hm]
      simp

/-! ### Shape of the MD5 hex output -/

theorem toLEBytes_length (k n : Nat) : (toLEBytes k n).length = k := by
  induction k generalizing n with
  | zero => rfl
  | succ j ih => simp [toLEBytes, ih]

theorem toLEBytes_lt (k n : Nat) : ∀ b ∈ toLEBytes k n, b < 256 := by
  induction k generalizing n with
  | zero => intro b hb; cases hb
  | succ j ih =>
    intro b hb
    rw [toLEBytes] at hb
    rcases List.mem_cons.mp hb with rfl | hb
    · exact Nat.mod_lt _ (by omega)
    · exact ih _ b hb

theorem md5Bytes_length (msg : List Nat) : (md5Bytes msg).length = 16 := by
  unfold md5Bytes
  simp [toLEBytes_length]

theorem md5Bytes_lt (msg : List Nat) : ∀ b ∈ md5Bytes msg, b < 256 := by
  unfold md5Bytes
  simp only []
  intro b hb
  rcases List.mem_append.mp hb with hb | hb
  · rcases List.mem_append.mp hb with hb | hb
    · rcases List.mem_append.mp hb with hb | hb
      · exact toLEBytes_lt _ _ b hb
      · exact toLEBytes_lt _ _ b hb
    · exact toLEBytes_lt _ _ b hb
  · exact toLEBytes_lt _ _ b hb

theorem bytesToHex_length (l : List Nat) : (bytesToHex l).length = 2 * l.length := by
  unfold bytesToHex
  rw [strConcat_length]
  induction l with
  | nil => rfl
  | cons b bs ih =>
    simp only [List.map_cons, List.sum_cons, hex2_length, ih, List.length_cons]
    omega

theorem bytesToHex_chars (l : List Nat) (h : ∀ b ∈ l, b < 256) :
    ∀ c ∈ (bytesToHex l).data, c ∈ hexChars := by
  unfold bytesToHex
  intro c hc
  rw [strConcat_data] at hc
  rcases List.mem_flatten.mp hc with ⟨d, hd, hcd⟩
  rcases List.mem_map.mp hd with ⟨e, he, rfl⟩
  rcases List.mem_map.mp he with ⟨b, hb, rfl⟩
  exact hex2_chars b (h b hb) c hcd

theorem md5Hex_length (s : String) : (md5Hex s).length = 32 := by
  unfold md5Hex
  rw [bytesToHex_length, md5Bytes_length]

theorem md5Hex_chars (s : String) : ∀ c ∈ (md5Hex s).data, c ∈ hexChars := by
  unfold md5Hex
  exact bytesToHex_chars _ (md5Bytes_lt _)

theorem string_mk_data (s : String) : String.mk s.data = s := rfl

/-- C5: `percent_encode` maps unreserved characters (`[A-Za-z0-9]`, `-`, `_`,
`~`, `.`) to themselves and every other character to one lowercase two-digit
`%xx` pair per UTF-8 byte; `encode("hello world") = "hello%20world"`,
`encode("ABC123") = "ABC123"`, and encoding is idempotent on strings of
unreserved characters. -/
theorem claim_C5_percent_encode (s : String)
    (hs : ∀ c ∈ s.data, is_unreserved_char c = true) :
    (∀ t : String, percent_encode t = strConcat (t.data.map specEncodeChar))
    ∧ percent_encode "hello world" = "hello%20world"
    ∧ percent_encode "ABC123" = "ABC123"
    ∧ percent_encode s = s
    ∧ percent_encode (percent_encode s) = percent_encode s := by
  have hid : percent_encode s = s := by
    unfold percent_encode
    have hmap : s.data.map percentEncodeChar = s.data.map String.singleton := by
      apply List.map_congr_left
      intro c hc
      unfold percentEncodeChar
      rw [if_neg (by simp [hs c hc])]
    rw [hmap, strConcat_singletons, string_mk_data]
  refine ⟨?_, by decide, by decide, hid, ?_⟩
  · intro t
    unfold percent_encode
    rw [List.map_congr_left (fun c _ => percentEncodeChar_eq_spec c)]
  · rw [hid, hid]

/-- Witness for C5 at `s = "Track.Name-1"`, all of whose characters are
unreserved. -/
theorem claim_C5_witness :
    (∀ c ∈ "Track.Name-1".data, is_unreserved_char c = true)
    ∧ percent_encode "Track.Name-1" = "Track.Name-1" :=
  ⟨by decide, (claim_C5_percent_encode "Track.Name-1" (by decide)).2.2.2.1⟩

/-- C4: the built request URI is the API root, `/?`, the parameters in
ascending byte-wise key order as percent-encoded `key=value` pairs joined by
`&`, then (if present) `api_sig`, then `format=json`; the spec's example set
with no signature produces exactly the expected query string. -/
theorem claim_C4_param_uri (params : List (String × String)) (sig : Option String) :
    create_param_uri params sig
      = API_ROOT ++ "/?"
        ++ String.intercalate "&" ((sortParams params).map
            (fun p => percent_encode p.1 ++ "=" ++ percent_encode p.2))
        ++ (match sig with | some s => "&api_sig=" ++ s | none => "")
        ++ "&format=json"
    ∧ KeySorted (sortParams params)
    ∧ (sortParams params).Perm params
    ∧ create_param_uri [("method", "juice"), ("api_key", "apple"), ("fortnite", "battlePass")] none
      = "https://ws.audioscrobbler.com/2.0/?api_key=apple&fortnite=battlePass&method=juice&format=json" := by
  refine ⟨?_, sortParams_sorted params, sortParams_perm params, by decide⟩
  unfold create_param_uri
  simp only []
  cases hs : sortParams params with
  | nil =>
    cases sig <;> simp [String.intercalate, ← String.append_assoc]
  | cons p rest =>
    have h1 : ((p :: rest).foldl addParam (API_ROOT ++ "/?", 0)).1
        = API_ROOT ++ "/?"
          ++ ((percent_encode p.1 ++ "=" ++ percent_encode p.2)
            ++ strConcat (rest.map
                (fun q => "&" ++ (percent_encode q.1 ++ "=" ++ percent_encode q.2)))) := by
      rw [List.foldl_cons, addParam]
      simp only [bne_self_eq_false, Bool.false_eq_true, if_neg, not_false_eq_true, ite_false]
      rw [foldl_addParam rest _ 1 one_ne_zero]
      simp [String.append_assoc]
    rw [h1, List.map_cons, intercalate_amp, List.map_map]
    cases sig <;> simp [String.append_assoc, Function.comp_def]

/-- Modelled from the spec's words for the signed string (§4.3): parameters
sorted by key byte-wise, each key immediately followed by its value, no
separators, then the shared secret.  Compared against `create_api_sig`. -/
def specSignedString (params : List (String × String)) (secret : String) : String :=
  strConcat ((sortParams params).map (fun p => p.1 ++ p.2)) ++ secret

/-- C2: `create_api_sig` is the lowercase 32-hex-digit MD5 of the
spec's signed string; it is invariant under the insertion order of a
duplicate-free parameter set; and the parameter map `LastFm::scrobble` signs
contains neither `api_sig` nor `format`. -/
theorem claim_C2_signature (params qs : List (String × String)) (secret : String)
    (hnd : (params.map Prod.fst).Nodup) (hperm : params.Perm qs) :
    create_api_sig params secret = md5Hex (specSignedString params secret)
    ∧ create_api_sig params secret = create_api_sig qs secret
    ∧ (create_api_sig params secret).length = 32
    ∧ (∀ c ∈ (create_api_sig params secret).data, c ∈ hexChars)
    ∧ (∀ artist track ts key sk album,
        "api_sig" ∉ (scrobbleParams artist track ts key sk album).map Prod.fst
        ∧ "format" ∉ (scrobbleParams artist track ts key sk album).map Prod.fst) := by
  have hspec : create_api_sig params secret = md5Hex (specSignedString params secret) := by
    unfold create_api_sig specSignedString
    rw [foldl_sigConcat]
    simp
  refine ⟨hspec, ?_, ?_, ?_, ?_⟩
  · have hsorteq : sortParams params = sortParams qs := by
      apply keySorted_perm_eq (sortParams_sorted params) (sortParams_sorted qs)
      · exact (sortParams_perm params).trans (hperm.trans (sortParams_perm qs).symm)
      · exact ((sortParams_perm params).map Prod.fst).nodup_iff.mpr hnd
    unfold create_api_sig
    rw [hsorteq]
  · rw [hspec]; exact md5Hex_length _
  · rw [hspec]; exact md5Hex_chars _
  · intro artist track ts key sk album
    cases album <;> simp [scrobbleParams]

/-- Witness for C2: the spec's determinism example,
`sign({"b":"2","a":"1"}, "secret") = sign({"a":"1","b":"2"}, "secret")`. -/
theorem claim_C2_witness :
    create_api_sig [("b", "2"), ("a", "1")] "secret"
      = create_api_sig [("a", "1"), ("b", "2")] "secret" :=
  (claim_C2_signature [("b", "2"), ("a", "1")] [("a", "1"), ("b", "2")] "secret"
    (by decide) (List.Perm.swap ("a", "1") ("b", "2") [])).2.1

/-- C9: a sample that is not `Playing`, or that comes from a non-primary
player while single-player filtering is on, produces no actions, leaves the
whole scrobble state untouched, and clears the external status display. -/
theorem claim_C9_not_playing (has_last_fm only_am : Bool) (amid : String) (now : Nat)
    (s : ScrobbleState) (m : MediaInfo)
    (h : statusIsPlaying m.status = false
      ∨ (only_am = true ∧ (m.player_name == amid) = false)) :
    tick_step has_last_fm only_am amid now s m = (s, [], DisplayEffect.clear) := by
  have hc : ¬((statusIsPlaying m.status && (!only_am || (m.player_name == amid))) = true) := by
    rcases h with h | ⟨h1, h2⟩
    · simp [h]
    · simp [h1, h2]
  unfold tick_step
  simp only []
  rw [if_neg hc]

/-- Witness for C9: a paused Apple Music sample following a playing one
leaves the state (including `current_has_been_scrobbled`) unchanged and
clears the display. -/
theorem claim_C9_witness :
    tick_step true true "Music" 7
      (ScrobbleState.mk
        (some (MediaInfo.mk "Music" "a" "s" "b" MediaStatus.playing MediaType.music 40000000 0))
        (some 3) true "img")
      (MediaInfo.mk "Music" "a" "s" "b" MediaStatus.paused MediaType.music 40000000 20000000)
    = (ScrobbleState.mk
        (some (MediaInfo.mk "Music" "a" "s" "b" MediaStatus.playing MediaType.music 40000000 0))
        (some 3) true "img", [], DisplayEffect.clear) :=
  claim_C9_not_playing true true "Music" 7 _ _ (Or.inl rfl)

/-- C7: `MediaInfo` equality holds exactly when player, artist, song and
album names are all equal (status, media type, length, position ignored), so
a second `Playing` sample with the same identity but a different position is
not a new track and enqueues no second `NowPlaying`. -/
theorem claim_C7_identity_eq (has_last_fm only_am : Bool) (amid : String) (now : Nat)
    (s : ScrobbleState) (m m' : MediaInfo)
    (hprev : s.previously_played = some m)
    (hid : m.player_name = m'.player_name ∧ m.artist_name = m'.artist_name
      ∧ m.song_name = m'.song_name ∧ m.album_name = m'.album_name)
    (hpos : m.current_position ≠ m'.current_position)
    (hplay : m'.status = MediaStatus.playing)
    (hvalid : (!only_am || (m'.player_name == amid)) = true) :
    (∀ a b : MediaInfo, mediaInfoEq a b = true
      ↔ (a.player_name = b.player_name ∧ a.artist_name = b.artist_name
          ∧ a.song_name = b.song_name ∧ a.album_name = b.album_name))
    ∧ (∀ i, LastFmThreadMessage.nowPlaying i
        ∉ (tick_step has_last_fm only_am amid now s m').2.1) := by
  constructor
  · intro a b
    unfold mediaInfoEq
    simp only [Bool.and_eq_true, beq_iff_eq]
    tauto
  · intro i
    have hsp : statusIsPlaying m'.status = true := by rw [hplay]; rfl
    have hcont : optMediaEq s.previously_played (some m') = true := by
      rw [hprev]
      show mediaInfoEq m m' = true
      unfold mediaInfoEq
      simp only [Bool.and_eq_true, beq_iff_eq]
      tauto
    unfold tick_step
    simp only []
    rw [if_pos (by rw [hsp, hvalid]; rfl), hcont]
    simp only [Bool.not_true, Bool.false_eq_true, if_neg, not_false_eq_true, ite_false]
    cases has_last_fm with
    | false => simp
    | true =>
      by_cases hb : (decide (30 < micros_as_secs (i64_as_u64 m'.end_time))
          && decide (micros_as_secs (i64_as_u64 m'.end_time) / 2
              < micros_as_secs (i64_as_u64 m'.current_position))
          && !s.current_has_been_scrobbled) = true
      · rw [if_pos rfl, if_pos hb]
        simp
      · rw [if_pos rfl, if_neg hb]
        simp

/-- Witness for C7: two playing samples of the same track differing only in
position; the second triggers no `NowPlaying`. -/
theorem claim_C7_witness :
    LastFmThreadMessage.nowPlaying
      (MediaInfo.mk "Music" "a" "s" "b" MediaStatus.playing MediaType.music 40000000 10000000)
      ∉ (tick_step true true "Music" 9
          (ScrobbleState.mk
            (some (MediaInfo.mk "Music" "a" "s" "b" MediaStatus.playing MediaType.music 40000000 5000000))
            (some 2) false "")
          (MediaInfo.mk "Music" "a" "s" "b" MediaStatus.playing MediaType.music 40000000 10000000)).2.1 :=
  (claim_C7_identity_eq true true "Music" 9
    (ScrobbleState.mk
      (some (MediaInfo.mk "Music" "a" "s" "b" MediaStatus.playing MediaType.music 40000000 5000000))
      (some 2) false "")
    (MediaInfo.mk "Music" "a" "s" "b" MediaStatus.playing MediaType.music 40000000 5000000)
    (MediaInfo.mk "Music" "a" "s" "b" MediaStatus.playing MediaType.music 40000000 10000000)
    rfl (by decide) (by decide) rfl (by decide)).2
    (MediaInfo.mk "Music" "a" "s" "b" MediaStatus.playing MediaType.music 40000000 10000000)

/-- Counterexample to C3 as stated: on a new track (LastFM enabled) the
previous track's artwork URL survives in `current_song_img`; it is not
cleared to the empty string. -/
theorem claim_C3_counterexample :
    (tick_step true true "Music" 50
      (ScrobbleState.mk
        (some (MediaInfo.mk "Music" "oldArtist" "oldSong" "oldAlbum"
          MediaStatus.playing MediaType.music 200000000 10000000))
        (some 1) true "http://old/cover.png")
      (MediaInfo.mk "Music" "newArtist" "newSong" "newAlbum"
        MediaStatus.playing MediaType.music 180000000 0)).1.current_song_img
      = "http://old/cover.png"
    ∧ "http://old/cover.png" ≠ "" := by
  exact ⟨rfl, by decide⟩

/-- C3 as amended: when LastFM is enabled and a `Playing` sample carries an
identity different from the current one, the step sets `current` to the new
identity, resets `started_at` to now, clears the scrobbled flag, and enqueues
`NowPlaying` then the artwork fetch — but `current_song_img` keeps its
previous value (it is only overwritten when the asynchronous artwork fetch
delivers). -/
theorem claim_C3_amended (only_am : Bool) (amid : String) (now : Nat)
    (s : ScrobbleState) (m : MediaInfo)
    (hplay : m.status = MediaStatus.playing)
    (hvalid : (!only_am || (m.player_name == amid)) = true)
    (hnew : optMediaEq s.previously_played (some m) = false) :
    tick_step true only_am amid now s m
      = (ScrobbleState.mk (some m) (some now) false s.current_song_img,
         [LastFmThreadMessage.nowPlaying m, LastFmThreadMessage.albumImg m],
         DisplayEffect.update) := by
  have hsp : statusIsPlaying m.status = true := by rw [hplay]; rfl
  unfold tick_step
  simp only []
  rw [if_pos (by rw [hsp, hvalid]; rfl), hnew]
  simp

/-- Witness for the amended C3. -/
theorem claim_C3_amended_witness :
    tick_step true true "Music" 50
      (ScrobbleState.mk
        (some (MediaInfo.mk "Music" "oldArtist" "oldSong" "oldAlbum"
          MediaStatus.playing MediaType.music 200000000 10000000))
        (some 1) true "http://old/cover.png")
      (MediaInfo.mk "Music" "newArtist" "newSong" "newAlbum"
        MediaStatus.playing MediaType.music 180000000 0)
    = (ScrobbleState.mk
        (some (MediaInfo.mk "Music" "newArtist" "newSong" "newAlbum"
          MediaStatus.playing MediaType.music 180000000 0))
        (some 50) false "http://old/cover.png",
       [LastFmThreadMessage.nowPlaying (MediaInfo.mk "Music" "newArtist" "newSong" "newAlbum"
          MediaStatus.playing MediaType.music 180000000 0),
        LastFmThreadMessage.albumImg (MediaInfo.mk "Music" "newArtist" "newSong" "newAlbum"
          MediaStatus.playing MediaType.music 180000000 0)],
       DisplayEffect.update) :=
  claim_C3_amended true "Music" 50 _ _ rfl (by decide) (by decide)

theorem i64_as_u64_of_nonneg (n : Int) (h0 : 0 ≤ n) (h : n < 18446744073709551616) :
    i64_as_u64 n = n.toNat := by
  unfold i64_as_u64
  rw [Int.emod_eq_of_lt h0 h]

/-- A playing 40-second Apple Music sample at the given position (µs). -/
def trackSample (pos : Int) : MediaInfo :=
  MediaInfo.mk "Music" "artist" "song" "album" MediaStatus.playing MediaType.music 40000000 pos

/-- Loop state mid-occupancy of `trackSample`: started at 1000, not yet scrobbled. -/
def trackState : ScrobbleState :=
  ScrobbleState.mk (some (trackSample 0)) (some 1000) false ""

/-- C1: for a `Playing` sample continuing the current track, a `Scrobble`
action is emitted iff the track is longer than 30 whole seconds, the elapsed
whole seconds exceed half the track seconds (integer division), and the
scrobbled flag is clear; the action carries the occupancy's `started_at` and
the step sets the flag; the spec's 40-second scenario (19 s: none, 21 s: one,
35 s after that: none) holds, and tracks of at most 30 s never scrobble. -/
theorem claim_C1_scrobble_eligibility (only_am : Bool) (amid : String) (now t0 : Nat)
    (s : ScrobbleState) (m : MediaInfo)
    (hplay : m.status = MediaStatus.playing)
    (hvalid : (!only_am || (m.player_name == amid)) = true)
    (hcont : optMediaEq s.previously_played (some m) = true)
    (hstart : s.previously_played_started = some t0)
    (hlen0 : 0 ≤ m.end_time) (hlen63 : m.end_time < 9223372036854775808)
    (hpos0 : 0 ≤ m.current_position) (hpos63 : m.current_position < 9223372036854775808) :
    ((LastFmThreadMessage.scrobble m t0 ∈ (tick_step true only_am amid now s m).2.1)
      ↔ (30 < m.end_time.toNat / 1000000
          ∧ m.end_time.toNat / 1000000 / 2 < m.current_position.toNat / 1000000
          ∧ s.current_has_been_scrobbled = false))
    ∧ ((30 < m.end_time.toNat / 1000000
          ∧ m.end_time.toNat / 1000000 / 2 < m.current_position.toNat / 1000000
          ∧ s.current_has_been_scrobbled = false)
        → (tick_step true only_am amid now s m).2.1 = [LastFmThreadMessage.scrobble m t0]
          ∧ (tick_step true only_am amid now s m).1.current_has_been_scrobbled = true)
    ∧ (¬(30 < m.end_time.toNat / 1000000
          ∧ m.end_time.toNat / 1000000 / 2 < m.current_position.toNat / 1000000
          ∧ s.current_has_been_scrobbled = false)
        → (tick_step true only_am amid now s m).2.1 = [])
    ∧ (m.end_time ≤ 30000000 → (tick_step true only_am amid now s m).2.1 = [])
    ∧ (tick_step true true "Music" 2000 trackState (trackSample 19000000)).2.1 = []
    ∧ (tick_step true true "Music" 2000 trackState (trackSample 21000000)).2.1
        = [LastFmThreadMessage.scrobble (trackSample 21000000) 1000]
    ∧ (tick_step true true "Music" 3000
        (tick_step true true "Music" 2000 trackState (trackSample 21000000)).1
        (trackSample 35000000)).2.1 = [] := by
  have hsp : statusIsPlaying m.status = true := by rw [hplay]; rfl
  have e1 : micros_as_secs (i64_as_u64 m.end_time) = m.end_time.toNat / 1000000 := by
    unfold micros_as_secs
    rw [i64_as_u64_of_nonneg _ hlen0 (by omega)]
  have e2 : micros_as_secs (i64_as_u64 m.current_position)
      = m.current_position.toNat / 1000000 := by
    unfold micros_as_secs
    rw [i64_as_u64_of_nonneg _ hpos0 (by omega)]
  have hred : tick_step true only_am amid now s m
      = if (decide (30 < micros_as_secs (i64_as_u64 m.end_time))
            && decide (micros_as_secs (i64_as_u64 m.end_time) / 2
                < micros_as_secs (i64_as_u64 m.current_position))
            && !s.current_has_been_scrobbled) = true
        then ({ s with current_has_been_scrobbled := true, previously_played := some m },
              [LastFmThreadMessage.scrobble m t0], DisplayEffect.update)
        else ({ s with previously_played := some m }, [], DisplayEffect.update) := by
    unfold tick_step
    simp only []
    rw [if_pos (by rw [hsp, hvalid]; rfl), hcont]
    simp only [Bool.not_true, Bool.false_eq_true, if_neg, not_false_eq_true, ite_false]
    rw [if_pos trivial, hstart, Option.getD_some]
  have hb_iff : (decide (30 < micros_as_secs (i64_as_u64 m.end_time))
      && decide (micros_as_secs (i64_as_u64 m.end_time) / 2
          < micros_as_secs (i64_as_u64 m.current_position))
      && !s.current_has_been_scrobbled) = true
      ↔ (30 < m.end_time.toNat / 1000000
          ∧ m.end_time.toNat / 1000000 / 2 < m.current_position.toNat / 1000000
          ∧ s.current_has_been_scrobbled = false) := by
    simp [Bool.and_eq_true, decide_eq_true_eq, Bool.not_eq_true', e1, e2, and_assoc]
  refine ⟨?_, ?_, ?_, ?_, by decide, by decide, by decide⟩
  · rw [hred]
    by_cases hb : (decide (30 < micros_as_secs (i64_as_u64 m.end_time))
        && decide (micros_as_secs (i64_as_u64 m.end_time) / 2
            < micros_as_secs (i64_as_u64 m.current_position))
        && !s.current_has_been_scrobbled) = true
    · rw [if_pos hb]
      simp [hb_iff.mp hb]
    · rw [if_neg hb]
      simp only [List.not_mem_nil, false_iff]
      exact fun hc => hb (hb_iff.mpr hc)
  · intro hc
    rw [hred, if_pos (hb_iff.mpr hc)]
    exact ⟨rfl, rfl⟩
  · intro hc
    rw [hred, if_neg (fun hb => hc (hb_iff.mp hb))]
  · intro hle
    have hno : ¬(30 < m.end_time.toNat / 1000000
        ∧ m.end_time.toNat / 1000000 / 2 < m.current_position.toNat / 1000000
        ∧ s.current_has_been_scrobbled = false) := by
      rintro ⟨h30, _, _⟩
      omega
    rw [hred, if_neg (fun hb => hno (hb_iff.mp hb))]

/-- Witness for C1: the 40-second track at 21 s elapsed is eligible and the
scrobble carrying the occupancy start time is emitted. -/
theorem claim_C1_witness :
    LastFmThreadMessage.scrobble (trackSample 21000000) 1000
      ∈ (tick_step true true "Music" 2000 trackState (trackSample 21000000)).2.1 :=
  ((claim_C1_scrobble_eligibility true "Music" 2000 1000 trackState (trackSample 21000000)
    rfl (by decide) (by decide) rfl (by decide) (by decide) (by decide) (by decide)).1).mpr
    (by decide)

/-- A continuing sample with pathological `i64` values: most-negative track
length, maximal non-negative position. -/
def wrapSample : MediaInfo :=
  MediaInfo.mk "Music" "wa" "ws" "wb" MediaStatus.playing MediaType.music
    (-9223372036854775808) 9223372036854775807

/-- Counterexample to C10 as stated: with `track_length_us = i64::MIN` and
`position_us = i64::MAX` (non-negative), the wrapped arithmetic makes the
elapsed seconds exceed half the wrapped length and a `Scrobble` IS emitted. -/
theorem claim_C10_counterexample :
    wrapSample.end_time < 0
    ∧ 0 ≤ wrapSample.current_position
    ∧ (tick_step true true "Music" 9
        (ScrobbleState.mk (some wrapSample) (some 5) false "") wrapSample).2.1
      = [LastFmThreadMessage.scrobble wrapSample 5] := by
  refine ⟨by decide, by decide, by decide⟩

/-- C10 as amended: the `i64` fields are converted with wrapping `as u64`, so
a continuing sample with negative `track_length_us` is treated as a track far
longer than 30 seconds whose half-length is at least `2^62` microseconds;
consequently no `Scrobble` is emitted for any continuing sample with negative
`track_length_us` and a position of at most `2^62` microseconds (positions
within about `2^62`..`i64::MAX` µs can still fire, as the counterexample
shows). -/
theorem claim_C10_amended (only_am : Bool) (amid : String) (now : Nat)
    (s : ScrobbleState) (m : MediaInfo)
    (hplay : m.status = MediaStatus.playing)
    (hvalid : (!only_am || (m.player_name == amid)) = true)
    (hcont : optMediaEq s.previously_played (some m) = true)
    (hneg : m.end_time < 0) (hrange : -9223372036854775808 ≤ m.end_time)
    (hpos0 : 0 ≤ m.current_position)
    (hposle : m.current_position ≤ 4611686018427387904) :
    30 < micros_as_secs (i64_as_u64 m.end_time)
    ∧ 4611686018427387904 ≤ i64_as_u64 m.end_time / 2
    ∧ (tick_step true only_am amid now s m).2.1 = [] := by
  have hsp : statusIsPlaying m.status = true := by rw [hplay]; rfl
  have hL : 9223372036854775808 ≤ i64_as_u64 m.end_time
      ∧ i64_as_u64 m.end_time < 18446744073709551616 := by
    unfold i64_as_u64
    omega
  have hP : i64_as_u64 m.current_position ≤ 4611686018427387904 := by
    unfold i64_as_u64
    omega
  have h30 : 30 < micros_as_secs (i64_as_u64 m.end_time) := by
    unfold micros_as_secs
    omega
  have hhalf : 4611686018427387904 ≤ i64_as_u64 m.end_time / 2 := by omega
  have hlt : ¬(micros_as_secs (i64_as_u64 m.end_time) / 2
      < micros_as_secs (i64_as_u64 m.current_position)) := by
    unfold micros_as_secs
    omega
  refine ⟨h30, hhalf, ?_⟩
  unfold tick_step
  simp only []
  rw [if_pos (by rw [hsp, hvalid]; rfl), hcont]
  simp only [Bool.not_true, Bool.false_eq_true, if_neg, not_false_eq_true, ite_false]
  rw [if_pos trivial, if_neg ?hc]
  case hc =>
    simp only [Bool.and_eq_true, decide_eq_true_eq]
    rintro ⟨⟨_, hx⟩, _⟩
    exact hlt hx

/-- Witness for the amended C10: a continuing sample with
`track_length_us = -1` and a one-second position emits nothing. -/
theorem claim_C10_amended_witness :
    (tick_step true true "Music" 9
      (ScrobbleState.mk
        (some (MediaInfo.mk "Music" "wa" "ws" "wb" MediaStatus.playing MediaType.music
          (-1) 1000000))
        (some 5) false "")
      (MediaInfo.mk "Music" "wa" "ws" "wb" MediaStatus.playing MediaType.music
        (-1) 1000000)).2.1 = [] :=
  (claim_C10_amended true "Music" 9
    (ScrobbleState.mk
      (some (MediaInfo.mk "Music" "wa" "ws" "wb" MediaStatus.playing MediaType.music
        (-1) 1000000))
      (some 5) false "")
    (MediaInfo.mk "Music" "wa" "ws" "wb" MediaStatus.playing MediaType.music (-1) 1000000)
    rfl (by decide) (by decide) (by decide) (by decide) (by decide) (by decide)).2.2

/-- C8: `now_playing`, `scrobble` and `get_track_info` fail with the status
code whenever the delivered status is 4xx/5xx, regardless of the body or its
parse outcome, and succeed (for `get_track_info`, with the parsed payload)
only on non-error statuses. -/
theorem claim_C8_http_errors (se so : Nat) (body : String)
    (parsed : Except String TrackInfo) (t : TrackInfo)
    (he : 400 ≤ se ∧ se ≤ 599) (ho : so < 400 ∨ 599 < so) :
    scrobbleHandle se body = Except.error (UreqError.statusCode se)
    ∧ nowPlayingHandle se body = Except.error (UreqError.statusCode se)
    ∧ getTrackInfoHandle se parsed = Except.error (UreqError.statusCode se)
    ∧ scrobbleHandle so body = Except.ok ()
    ∧ nowPlayingHandle so body = Except.ok ()
    ∧ getTrackInfoHandle so (Except.ok t) = Except.ok t := by
  have hetrue : (is_client_error se || is_server_error se) = true := by
    unfold is_client_error is_server_error
    simp only [Bool.or_eq_true, Bool.and_eq_true, decide_eq_true_eq]
    omega
  have hofalse : ¬((is_client_error so || is_server_error so) = true) := by
    unfold is_client_error is_server_error
    simp only [Bool.or_eq_true, Bool.and_eq_true, decide_eq_true_eq]
    omega
  unfold scrobbleHandle nowPlayingHandle getTrackInfoHandle
  simp only []
  simp only [if_pos hetrue, if_neg hofalse]
  simp

/-- Witness for C8 at a 404 error and a 200 success. -/
theorem claim_C8_witness :
    scrobbleHandle 404 "ok-looking body" = Except.error (UreqError.statusCode 404)
    ∧ getTrackInfoHandle 200 (Except.ok (TrackInfo.mk "s" "a" "aa" "at" []))
      = Except.ok (TrackInfo.mk "s" "a" "aa" "at" []) :=
  ⟨(claim_C8_http_errors 404 200 "ok-looking body"
      (Except.ok (TrackInfo.mk "s" "a" "aa" "at" []))
      (TrackInfo.mk "s" "a" "aa" "at" []) (by omega) (by omega)).1,
   (claim_C8_http_errors 404 200 "ok-looking body"
      (Except.ok (TrackInfo.mk "s" "a" "aa" "at" []))
      (TrackInfo.mk "s" "a" "aa" "at" []) (by omega) (by omega)).2.2.2.2.2⟩

/-- C6: the credential retry loop retries only retryable transport errors
(sleeping one second between attempts, counted in the second component),
returns immediately with no sleep on any fatal error, succeeds after exactly
3 backoff sleeps when 3 transient failures precede a success under an attempt
budget of 5, and returns the terminal failed-after-N-attempts error when 2
transient failures exhaust a budget of 2. -/
theorem claim_C6_retry (oc1 oc2 oc3 : Nat → Except CredsError LastFmCreds)
    (c : LastFmCreds) (e : CredsError) (n : Nat)
    (h1 : oc1 0 = Except.error e) (hf : isRetryable e = false) (hn : 1 ≤ n)
    (h2r : ∀ i < 3, ∃ code msg, oc2 i = Except.error (CredsError.retryableError code msg))
    (h2ok : oc2 3 = Except.ok c)
    (h3r : ∀ i < 2, ∃ code msg, oc3 i = Except.error (CredsError.retryableError code msg)) :
    retry_creds oc1 n = (Except.error e, 0)
    ∧ retry_creds oc2 5 = (Except.ok c, 3)
    ∧ retry_creds oc3 2
      = (Except.error (CredsError.retryableError (-1)
          "Failed to connect to LastFM after 2 attempts"), 2) := by
  refine ⟨?_, ?_, ?_⟩
  · obtain ⟨k, rfl⟩ : ∃ k, n = k + 1 := ⟨n - 1, by omega⟩
    unfold retry_creds retry_creds_go
    rw [h1]
    simp [hf]
  · obtain ⟨c0, m0, h0⟩ := h2r 0 (by omega)
    obtain ⟨c1, m1, hh1⟩ := h2r 1 (by omega)
    obtain ⟨c2, m2, h2⟩ := h2r 2 (by omega)
    unfold retry_creds
    rw [retry_creds_go, h0]
    simp only [isRetryable, if_pos]
    rw [retry_creds_go, hh1]
    simp only [isRetryable, if_pos]
    rw [retry_creds_go, h2]
    simp only [isRetryable, if_pos]
    rw [retry_creds_go, h2ok]
  · obtain ⟨c0, m0, h0⟩ := h3r 0 (by omega)
    obtain ⟨c1, m1, hh1⟩ := h3r 1 (by omega)
    unfold retry_creds
    rw [retry_creds_go, h0]
    simp only [isRetryable, if_pos]
    rw [retry_creds_go, hh1]
    simp only [isRetryable, if_pos]
    rw [retry_creds_go]
    rfl

/-- Witness for C6: concrete outcome sequences for the three scenarios. -/
theorem claim_C6_witness :
    retry_creds (fun _ => Except.error CredsError.missingPassword) 4
      = (Except.error CredsError.missingPassword, 0)
    ∧ retry_creds (fun i => if i < 3
        then Except.error (CredsError.retryableError 0 "timeout")
        else Except.ok (LastFmCreds.mk "k" "s" "t")) 5
      = (Except.ok (LastFmCreds.mk "k" "s" "t"), 3)
    ∧ retry_creds (fun _ => Except.error (CredsError.retryableError 0 "timeout")) 2
      = (Except.error (CredsError.retryableError (-1)
          "Failed to connect to LastFM after 2 attempts"), 2) :=
  claim_C6_retry
    (fun _ => Except.error CredsError.missingPassword)
    (fun i => if i < 3
      then Except.error (CredsError.retryableError 0 "timeout")
      else Except.ok (LastFmCreds.mk "k" "s" "t"))
    (fun _ => Except.error (CredsError.retryableError 0 "timeout"))
    (LastFmCreds.mk "k" "s" "t") CredsError.missingPassword 4
    rfl rfl (by omega)
    (fun i hi => ⟨0, "timeout", by simp [hi]⟩)
    (by simp)
    (fun i hi => ⟨0, "timeout", rfl⟩)
